import Mathlib

/-!
Shallow embedding of the ChessVar rule engine (src/ChessVar.py).

Modelling conventions:
* A board coordinate is a pair of characters (file letter, rank digit), matching the
  two-character position strings of the source.  Move arguments are `List Char`,
  matching the Python strings handed to `make_move` (including malformed ones).
* Piece objects are identified by their index in the construction order of
  `Player.__init__`: indices 0-15 are White's pieces, 16-31 are Black's.
  Object identity in Python (board square -> piece, roster membership,
  `list.remove`) becomes equality of these indices.
* Mutation is modelled by explicit state passing on `GameState`; Python methods
  that mutate in place return the updated state.
* Uncaught Python exceptions that are not one of the engine's three declared
  exception classes are modelled as extra error values: `Err.indexError` for the
  IndexError raised by `string[i]` on a too-short string, `Err.keyError` for the
  KeyError raised by a failed board-dictionary lookup, and `Err.attributeError`
  for calling a method on `None` (a piece whose position is `None`).
-/

namespace ChessVar

/-- The piece subtype tag (`_type` string of each Piece subclass). -/
inductive PieceType
  | pawn
  | knight
  | bishop
  | rook
  | queen
  | king
deriving DecidableEq

/-- Player colour; `Player("White", ...)` is `player_list[0]`, `Player("Black", ...)`
is `player_list[1]`.  Player object identity reduces to colour. -/
inductive Color
  | white
  | black
deriving DecidableEq

/-- The opposite colour. -/
def Color.other : Color → Color
  | Color.white => Color.black
  | Color.black => Color.white

/-- The game_state strings "UNFINISHED", "WHITE_WON", "BLACK_WON". -/
inductive GState
  | unfinished
  | whiteWon
  | blackWon
deriving DecidableEq

/-- Index of a piece object in the fixed construction order (0-15 White, 16-31 Black). -/
abbrev PieceId := Fin 32

/-- The mutable data of one Piece object: its type tag and owner (both fixed at
construction) and its current position (`None` once captured). -/
structure PieceState where
  ptype : PieceType
  owner : Color
  pos : Option (Char × Char)
deriving DecidableEq

/-- The eight compass direction strings computed at the top of `Piece.move`. -/
inductive Dir
  | up
  | down
  | left
  | right
  | dUpRight
  | dDownRight
  | dUpLeft
  | dDownLeft
deriving DecidableEq

/-- The Python test `"diagonal" in direction`. -/
def Dir.isDiag : Dir → Bool
  | Dir.dUpRight => true
  | Dir.dDownRight => true
  | Dir.dUpLeft => true
  | Dir.dDownLeft => true
  | _ => false

/-- Whole-game state: board occupancy (square -> occupant), the 32 piece objects,
the two players' active-piece rosters, the game state and the turn holder. -/
structure GameState where
  board : Char × Char → Option PieceId
  pieces : PieceId → PieceState
  whiteRoster : List PieceId
  blackRoster : List PieceId
  gameState : GState
  turn : Color

/-- Result of `Piece.move`: `False`, `True`, the captured piece object, or an
uncaught AttributeError (moving a piece whose position is `None`). -/
inductive MoveRes
  | rejected
  | moved
  | capture (cap : PieceId)
  | crash
deriving DecidableEq

/-- `Piece.move` ended in one of its two success returns. -/
def MoveRes.isAccepted : MoveRes → Bool
  | MoveRes.moved => true
  | MoveRes.capture _ => true
  | _ => false

/-- Error outcomes of `ChessVar.make_move`: the three declared exception classes
plus the modelled uncaught built-in exceptions (see the module docstring). -/
inductive Err
  | gameOver
  | outOfTurn
  | illegalMove
  | indexError
  | keyError
  | attributeError
deriving DecidableEq

/-- Whether an error is one of the engine's own declared exception classes
(GameOverError, MoveOutOfTurnError, IllegalMoveError), as opposed to an
uncaught Python built-in exception. -/
def Err.isEngineError : Err → Bool
  | Err.gameOver => true
  | Err.outOfTurn => true
  | Err.illegalMove => true
  | _ => false

instance (ε α : Type) [DecidableEq ε] [DecidableEq α] : DecidableEq (Except ε α) := fun a b =>
  match a, b with
  | Except.error e, Except.error f =>
    if h : e = f then isTrue (by rw [h]) else isFalse (by intro hh; cases hh; exact h rfl)
  | Except.ok x, Except.ok y =>
    if h : x = y then isTrue (by rw [h]) else isFalse (by intro hh; cases hh; exact h rfl)
  | Except.error _, Except.ok _ => isFalse (by intro hh; cases hh)
  | Except.ok _, Except.error _ => isFalse (by intro hh; cases hh)

/-- `Piece.iterate_position_str(character, direction, distance)`: steps a single
file letter or rank digit, returning `none` where the source returns `None`
(walking off the board).  The knight branch (distance 2) is selected exactly as
in the source: `self.get_type() != "Knight" or distance == 1`. -/
def iteratePositionStr (ptype : PieceType) (character : Char) (direction : Nat)
    (distance : Option Nat) : Option Char :=
  if ptype ≠ PieceType.knight ∨ distance = some 1 then
    if direction = 0 then
      if 'a' ≤ character ∧ character ≤ 'h' then
        if character = 'a' then none
        else if character = 'b' then some 'a'
        else if character = 'c' then some 'b'
        else if character = 'd' then some 'c'
        else if character = 'e' then some 'd'
        else if character = 'f' then some 'e'
        else if character = 'g' then some 'f'
        else some 'g'
      else if '1' ≤ character ∧ character ≤ '8' then
        if character = '1' then none
        else if character = '2' then some '1'
        else if character = '3' then some '2'
        else if character = '4' then some '3'
        else if character = '5' then some '4'
        else if character = '6' then some '5'
        else if character = '7' then some '6'
        else some '7'
      else none
    else
      if 'a' ≤ character ∧ character ≤ 'h' then
        if character = 'a' then some 'b'
        else if character = 'b' then some 'c'
        else if character = 'c' then some 'd'
        else if character = 'd' then some 'e'
        else if character = 'e' then some 'f'
        else if character = 'f' then some 'g'
        else if character = 'g' then some 'h'
        else none
      else if '1' ≤ character ∧ character ≤ '8' then
        if character = '1' then some '2'
        else if character = '2' then some '3'
        else if character = '3' then some '4'
        else if character = '4' then some '5'
        else if character = '5' then some '6'
        else if character = '6' then some '7'
        else if character = '7' then some '8'
        else none
      else none
  else
    if direction = 0 then
      if 'a' ≤ character ∧ character ≤ 'h' then
        if character = 'a' then none
        else if character = 'b' then none
        else if character = 'c' then some 'a'
        else if character = 'd' then some 'b'
        else if character = 'e' then some 'c'
        else if character = 'f' then some 'd'
        else if character = 'g' then some 'e'
        else some 'f'
      else if '1' ≤ character ∧ character ≤ '8' then
        if character = '1' then none
        else if character = '2' then none
        else if character = '3' then some '1'
        else if character = '4' then some '2'
        else if character = '5' then some '3'
        else if character = '6' then some '4'
        else if character = '7' then some '5'
        else some '6'
      else none
    else
      if 'a' ≤ character ∧ character ≤ 'h' then
        if character = 'a' then some 'c'
        else if character = 'b' then some 'd'
        else if character = 'c' then some 'e'
        else if character = 'd' then some 'f'
        else if character = 'e' then some 'g'
        else if character = 'f' then some 'h'
        else none
      else if '1' ≤ character ∧ character ≤ '8' then
        if character = '1' then some '3'
        else if character = '2' then some '4'
        else if character = '3' then some '5'
        else if character = '4' then some '6'
        else if character = '5' then some '7'
        else if character = '6' then some '8'
        else none
      else none

/-- The direction classification at the top of `Piece.move` (lines 603-638):
file/rank character comparisons give `horizontal`, `vertical` in {-1,0,1}, which
map to a compass direction; both zero (no movement) gives `none`. -/
def classifyDir (s d : Char × Char) : Option Dir :=
  let horizontal : Int := if s.1 < d.1 then 1 else if s.1 = d.1 then 0 else -1
  let vertical : Int := if s.2 < d.2 then 1 else if s.2 = d.2 then 0 else -1
  if horizontal = 0 ∧ vertical = 0 then none
  else if horizontal = 0 ∧ vertical = 1 then some Dir.up
  else if horizontal = 0 ∧ vertical = -1 then some Dir.down
  else if horizontal = 1 ∧ vertical = 0 then some Dir.right
  else if horizontal = 1 ∧ vertical = 1 then some Dir.dUpRight
  else if horizontal = 1 ∧ vertical = -1 then some Dir.dDownRight
  else if horizontal = -1 ∧ vertical = 0 then some Dir.left
  else if horizontal = -1 ∧ vertical = 1 then some Dir.dUpLeft
  else some Dir.dDownLeft

/-- `int(c)` on a rank-digit character (used only in the knight branch). -/
def charDigit (c : Char) : Int := (c.toNat : Int) - 48

/-- `Piece.next_position(board, current, direction, destination)`: one step of
the per-variant stepper.  Returns the next square, or `none` where the source
returns `None` (illegal direction for the variant, or off the board edge). -/
def nextPosition (ptype : PieceType) (color : Color) (cur : Char × Char)
    (direction : Dir) (dest : Char × Char) : Option (Char × Char) :=
  match ptype with
  | PieceType.pawn =>
    match color with
    | Color.white =>
      match direction with
      | Dir.up =>
        match iteratePositionStr PieceType.pawn cur.2 1 none with
        | none => none
        | some n => some (cur.1, n)
      | Dir.dUpRight =>
        match iteratePositionStr PieceType.pawn cur.1 1 none,
              iteratePositionStr PieceType.pawn cur.2 1 none with
        | some l, some n => some (l, n)
        | _, _ => none
      | Dir.dUpLeft =>
        match iteratePositionStr PieceType.pawn cur.1 0 none,
              iteratePositionStr PieceType.pawn cur.2 1 none with
        | some l, some n => some (l, n)
        | _, _ => none
      | _ => none
    | Color.black =>
      match direction with
      | Dir.down =>
        match iteratePositionStr PieceType.pawn cur.2 0 none with
        | none => none
        | some n => some (cur.1, n)
      | Dir.dDownRight =>
        match iteratePositionStr PieceType.pawn cur.1 1 none,
              iteratePositionStr PieceType.pawn cur.2 0 none with
        | some l, some n => some (l, n)
        | _, _ => none
      | Dir.dDownLeft =>
        match iteratePositionStr PieceType.pawn cur.1 0 none,
              iteratePositionStr PieceType.pawn cur.2 0 none with
        | some l, some n => some (l, n)
        | _, _ => none
      | _ => none
  | PieceType.bishop =>
    match direction with
    | Dir.dUpRight =>
      match iteratePositionStr PieceType.bishop cur.1 1 none,
            iteratePositionStr PieceType.bishop cur.2 1 none with
      | some l, some n => some (l, n)
      | _, _ => none
    | Dir.dUpLeft =>
      match iteratePositionStr PieceType.bishop cur.1 0 none,
            iteratePositionStr PieceType.bishop cur.2 1 none with
      | some l, some n => some (l, n)
      | _, _ => none
    | Dir.dDownRight =>
      match iteratePositionStr PieceType.bishop cur.1 1 none,
            iteratePositionStr PieceType.bishop cur.2 0 none with
      | some l, some n => some (l, n)
      | _, _ => none
    | Dir.dDownLeft =>
      match iteratePositionStr PieceType.bishop cur.1 0 none,
            iteratePositionStr PieceType.bishop cur.2 0 none with
      | some l, some n => some (l, n)
      | _, _ => none
    | _ => none
  | PieceType.knight =>
    if ¬ direction.isDiag then none
    else
      -- the unique L-displacement, selected by the rank delta to the destination
      let lr : Option Char × Option Char :=
        match direction with
        | Dir.dUpRight =>
          if charDigit cur.2 = charDigit dest.2 - 1 then
            (iteratePositionStr PieceType.knight cur.1 1 (some 2),
             iteratePositionStr PieceType.knight cur.2 1 (some 1))
          else if charDigit cur.2 = charDigit dest.2 - 2 then
            (iteratePositionStr PieceType.knight cur.1 1 (some 1),
             iteratePositionStr PieceType.knight cur.2 1 (some 2))
          else (none, none)
        | Dir.dUpLeft =>
          if charDigit cur.2 = charDigit dest.2 - 1 then
            (iteratePositionStr PieceType.knight cur.1 0 (some 2),
             iteratePositionStr PieceType.knight cur.2 1 (some 1))
          else if charDigit cur.2 = charDigit dest.2 - 2 then
            (iteratePositionStr PieceType.knight cur.1 0 (some 1),
             iteratePositionStr PieceType.knight cur.2 1 (some 2))
          else (none, none)
        | Dir.dDownRight =>
          if charDigit cur.2 = charDigit dest.2 + 1 then
            (iteratePositionStr PieceType.knight cur.1 1 (some 2),
             iteratePositionStr PieceType.knight cur.2 0 (some 1))
          else if charDigit cur.2 = charDigit dest.2 + 2 then
            (iteratePositionStr PieceType.knight cur.1 1 (some 1),
             iteratePositionStr PieceType.knight cur.2 0 (some 2))
          else (none, none)
        | _ =>
          if charDigit cur.2 = charDigit dest.2 + 1 then
            (iteratePositionStr PieceType.knight cur.1 0 (some 2),
             iteratePositionStr PieceType.knight cur.2 0 (some 1))
          else if charDigit cur.2 = charDigit dest.2 + 2 then
            (iteratePositionStr PieceType.knight cur.1 0 (some 1),
             iteratePositionStr PieceType.knight cur.2 0 (some 2))
          else (none, none)
      match lr with
      | (some l, some n) => some (l, n)
      | _ => none
  | PieceType.rook =>
    match direction with
    | Dir.up =>
      match iteratePositionStr PieceType.rook cur.2 1 none with
      | none => none
      | some n => some (cur.1, n)
    | Dir.down =>
      match iteratePositionStr PieceType.rook cur.2 0 none with
      | none => none
      | some n => some (cur.1, n)
    | Dir.left =>
      match iteratePositionStr PieceType.rook cur.1 0 none with
      | none => none
      | some l => some (l, cur.2)
    | Dir.right =>
      match iteratePositionStr PieceType.rook cur.1 1 none with
      | none => none
      | some l => some (l, cur.2)
    | _ => none
  | _ =>
    -- Queen and King share one branch in the source
    match direction with
    | Dir.up =>
      match iteratePositionStr ptype cur.2 1 none with
      | none => none
      | some n => some (cur.1, n)
    | Dir.down =>
      match iteratePositionStr ptype cur.2 0 none with
      | none => none
      | some n => some (cur.1, n)
    | Dir.left =>
      match iteratePositionStr ptype cur.1 0 none with
      | none => none
      | some l => some (l, cur.2)
    | Dir.right =>
      match iteratePositionStr ptype cur.1 1 none with
      | none => none
      | some l => some (l, cur.2)
    | Dir.dUpRight =>
      match iteratePositionStr ptype cur.1 1 none, iteratePositionStr ptype cur.2 1 none with
      | some l, some n => some (l, n)
      | _, _ => none
    | Dir.dUpLeft =>
      match iteratePositionStr ptype cur.1 0 none, iteratePositionStr ptype cur.2 1 none with
      | some l, some n => some (l, n)
      | _, _ => none
    | Dir.dDownRight =>
      match iteratePositionStr ptype cur.1 1 none, iteratePositionStr ptype cur.2 0 none with
      | some l, some n => some (l, n)
      | _, _ => none
    | Dir.dDownLeft =>
      match iteratePositionStr ptype cur.1 0 none, iteratePositionStr ptype cur.2 0 none with
      | some l, some n => some (l, n)
      | _, _ => none

/-- The pawn legality tests of `Piece.move` (lines 644-697), as a predicate:
`true` exactly when control falls through to the execution block. -/
def pawnLegal (gs : GameState) (p : PieceState) (sp dest : Char × Char) (direction : Dir) :
    Bool :=
  if (sp.2 = '2' ∧ p.owner = Color.white) ∨ (sp.2 = '7' ∧ p.owner = Color.black) then
    if direction.isDiag then
      match nextPosition PieceType.pawn p.owner sp direction dest with
      | none => false
      | some np =>
        match gs.board np with
        | none => false
        | some q => np = dest ∧ ¬ p.owner = (gs.pieces q).owner
    else
      -- the two-iteration loop: advance one or two squares
      match nextPosition PieceType.pawn p.owner sp direction dest with
      | none => false
      | some np1 =>
        match gs.board np1 with
        | some _ => false
        | none =>
          if np1 = dest then true
          else
            match nextPosition PieceType.pawn p.owner np1 direction dest with
            | none => false
            | some np2 =>
              match gs.board np2 with
              | some _ => false
              | none => np2 = dest
  else
    match nextPosition PieceType.pawn p.owner sp direction dest with
    | none => false
    | some np =>
      if direction.isDiag then
        match gs.board np with
        | none => false
        | some q => np = dest ∧ ¬ p.owner = (gs.pieces q).owner
      else
        match gs.board np with
        | none => np = dest
        | some _ => false

/-- The King/Knight legality test of `Piece.move` (lines 700-707): a single step
that must land exactly on the destination, not occupied by an own piece. -/
def singleStepLegal (gs : GameState) (p : PieceState) (sp dest : Char × Char)
    (direction : Dir) : Bool :=
  match nextPosition p.ptype p.owner sp direction dest with
  | none => false
  | some np =>
    if ¬ np = dest then false
    else
      match gs.board np with
      | none => true
      | some q => ¬ p.owner = (gs.pieces q).owner

/-- The sliding-piece path-walking loop of `Piece.move` (lines 710-726).  The
source loop is `while True`; it makes at most 8 stepper calls before deciding
(each successful step moves one square toward a board edge), so fuel 8 is
sufficient and the fuel-0 case is unreachable from in-range squares. -/
def sliderWalk (gs : GameState) (p : PieceState) (fuel : Nat) (cur dest : Char × Char)
    (direction : Dir) : Bool :=
  match fuel with
  | 0 => false
  | Nat.succ fuel =>
    match nextPosition p.ptype p.owner cur direction dest with
    | none => false
    | some np =>
      match gs.board np with
      | none => if np = dest then true else sliderWalk gs p fuel np dest direction
      | some q => np = dest ∧ ¬ p.owner = (gs.pieces q).owner

/-- Dispatch of the legality tests of `Piece.move` on the piece's type:
Pawn; King or Knight; all others (the sliding pieces). -/
def pieceLegal (gs : GameState) (p : PieceState) (sp dest : Char × Char)
    (direction : Dir) : Bool :=
  match p.ptype with
  | PieceType.pawn => pawnLegal gs p sp dest direction
  | PieceType.king => singleStepLegal gs p sp dest direction
  | PieceType.knight => singleStepLegal gs p sp dest direction
  | _ => sliderWalk gs p 8 sp dest direction

/-- The execution block of `Piece.move` (lines 728-738), run once legality is
confirmed: clear the origin square, move the piece, and detach any captured
piece (position to `None`, removed from its owner's roster). -/
def executeMove (gs : GameState) (pid : PieceId) (sp dest : Char × Char) :
    GameState × MoveRes :=
  let b1 : (Char × Char) → Option PieceId := fun c => if c = sp then none else gs.board c
  let pieces1 : PieceId → PieceState :=
    fun q => if q = pid then { gs.pieces q with pos := some dest } else gs.pieces q
  match b1 dest with
  | none =>
    ({ gs with board := fun c => if c = dest then some pid else b1 c, pieces := pieces1 },
     MoveRes.moved)
  | some cap =>
    let pieces2 : PieceId → PieceState :=
      fun q => if q = cap then { pieces1 q with pos := none } else pieces1 q
    ({ gs with
        board := fun c => if c = dest then some pid else b1 c,
        pieces := pieces2,
        whiteRoster :=
          if (gs.pieces cap).owner = Color.white then gs.whiteRoster.erase cap
          else gs.whiteRoster,
        blackRoster :=
          if (gs.pieces cap).owner = Color.black then gs.blackRoster.erase cap
          else gs.blackRoster },
     MoveRes.capture cap)

/-- `Piece.move(position, board)`: classify the direction (rejecting a
no-movement request), run the per-variant legality tests, and on success run
the execution block.  A piece whose position is `None` crashes (AttributeError
on `self._position.get_string()`). -/
def pieceMove (gs : GameState) (pid : PieceId) (dest : Char × Char) :
    GameState × MoveRes :=
  match (gs.pieces pid).pos with
  | none => (gs, MoveRes.crash)
  | some sp =>
    match classifyDir sp dest with
    | none => (gs, MoveRes.rejected)
    | some direction =>
      if pieceLegal gs (gs.pieces pid) sp dest direction then executeMove gs pid sp dest
      else (gs, MoveRes.rejected)

/-- `string[i]` on a Python string: IndexError when out of range. -/
def charAt (s : List Char) (i : Nat) : Except Err Char :=
  match s.get? i with
  | some c => Except.ok c
  | none => Except.error Err.indexError

/-- The coordinate-range test of `make_move` (lines 121-123), with the source's
left-to-right short-circuit evaluation order: `string1[0]`, `string2[0]`,
`string1[1]`, `string2[1]`, each indexing raising IndexError on a too-short
string and each out-of-range character raising IllegalMoveError. -/
def boundsCheck (string1 string2 : List Char) : Except Err Unit :=
  match charAt string1 0 with
  | Except.error e => Except.error e
  | Except.ok a0 =>
    if a0 < 'a' ∨ a0 > 'h' then Except.error Err.illegalMove
    else
      match charAt string2 0 with
      | Except.error e => Except.error e
      | Except.ok b0 =>
        if b0 < 'a' ∨ b0 > 'h' then Except.error Err.illegalMove
        else
          match charAt string1 1 with
          | Except.error e => Except.error e
          | Except.ok a1 =>
            if a1 < '1' ∨ a1 > '8' then Except.error Err.illegalMove
            else
              match charAt string2 1 with
              | Except.error e => Except.error e
              | Except.ok b1 =>
                if b1 < '1' ∨ b1 > '8' then Except.error Err.illegalMove
                else Except.ok ()

/-- Lookup in the board dictionary `board_state`: its keys are exactly the 64
two-character strings of a file letter `a`-`h` followed by a rank digit `1`-`8`;
any other string raises KeyError. -/
def parseKey (s : List Char) : Option (Char × Char) :=
  match s with
  | [f, r] => if ('a' ≤ f ∧ f ≤ 'h') ∧ ('1' ≤ r ∧ r ≤ '8') then some (f, r) else none
  | _ => none

/-- `Board.get_position_state(string)`: dictionary lookup (KeyError on a
non-key string) followed by `get_piece()` on the square. -/
def getPositionState (gs : GameState) (s : List Char) : Except Err (Option PieceId) :=
  match parseKey s with
  | none => Except.error Err.keyError
  | some c => Except.ok (gs.board c)

/-- `ChessVar.make_move(string1, string2)` (lines 100-171): the validation
chain, delegation to `Piece.move`, capture/win-condition handling and turn
flip.  Returns the new game state together with the Python return value
(`True` on success; note the source returns `True` for captures as well) or
the raised error. -/
def makeMove (gs : GameState) (string1 string2 : List Char) :
    GameState × Except Err Bool :=
  if gs.gameState = GState.whiteWon ∨ gs.gameState = GState.blackWon then
    (gs, Except.error Err.gameOver)
  else
    match boundsCheck string1 string2 with
    | Except.error e => (gs, Except.error e)
    | Except.ok _ =>
      match getPositionState gs string1 with
      | Except.error e => (gs, Except.error e)
      | Except.ok none => (gs, Except.error Err.illegalMove)
      | Except.ok (some pid) =>
        if ¬ (gs.pieces pid).owner = gs.turn then (gs, Except.error Err.outOfTurn)
        else
          match parseKey string2 with
          | none => (gs, Except.error Err.keyError)
          | some dest =>
            let pm := pieceMove gs pid dest
            match pm.2 with
            | MoveRes.crash => (pm.1, Except.error Err.attributeError)
            | MoveRes.rejected => (pm.1, Except.error Err.illegalMove)
            | MoveRes.moved =>
              ({ pm.1 with
                  turn := if pm.1.turn = Color.white then Color.black else Color.white },
               Except.ok true)
            | MoveRes.capture cap =>
              let gs1 := pm.1
              let capturedType := (gs1.pieces cap).ptype
              let roster :=
                match (gs1.pieces cap).owner with
                | Color.white => gs1.whiteRoster
                | Color.black => gs1.blackRoster
              let lastPiece :=
                roster.all fun q => ! ((gs1.pieces q).ptype == capturedType)
              let gs2 :=
                if lastPiece then
                  { gs1 with
                      gameState :=
                        if gs1.turn = Color.white then GState.whiteWon else GState.blackWon }
                else gs1
              ({ gs2 with
                  turn := if gs2.turn = Color.white then Color.black else Color.white },
               Except.ok true)

/-- `ChessVar.set_turn(turn)` (lines 88-98): the White player exactly when the
argument is the string "White", the Black player for anything else. -/
def whiteLabel : List Char := ['W', 'h', 'i', 't', 'e']

/-- `ChessVar.set_turn`. -/
def setTurn (gs : GameState) (turn : List Char) : GameState :=
  if turn = whiteLabel then { gs with turn := Color.white }
  else { gs with turn := Color.black }

/-- File letters in board order (used for the initial pawn ranks). -/
def fileChars : List Char := ['a', 'b', 'c', 'd', 'e', 'f', 'g', 'h']

/-- Files of the back-rank pieces in the construction order of
`Player.__init__`: rooks a,h; knights b,g; bishops c,f; queen d; king e. -/
def backFiles : List Char := ['a', 'h', 'b', 'g', 'c', 'f', 'd', 'e']

/-- Types of the back-rank pieces in the same construction order. -/
def backTypes : List PieceType :=
  [PieceType.rook, PieceType.rook, PieceType.knight, PieceType.knight,
   PieceType.bishop, PieceType.bishop, PieceType.queen, PieceType.king]

/-- Build a `PieceId` from a raw index. -/
def mkId (n : Nat) : PieceId := ⟨n % 32, Nat.mod_lt n (by decide)⟩

/-- The piece object at construction index `i`: indices 0-7 are the pawns a-h,
8-15 the back rank in the order of `backFiles`/`backTypes`; 0-15 White (ranks
2 and 1), 16-31 Black (ranks 7 and 8). -/
def initPieceState (i : PieceId) : PieceState :=
  let color := if i.val < 16 then Color.white else Color.black
  let j := i.val % 16
  if j < 8 then
    { ptype := PieceType.pawn, owner := color,
      pos := some (fileChars.getD j 'a', if i.val < 16 then '2' else '7') }
  else
    { ptype := backTypes.getD (j - 8) PieceType.king, owner := color,
      pos := some (backFiles.getD (j - 8) 'a', if i.val < 16 then '1' else '8') }

/-- The freshly constructed `ChessVar()` game: every square's occupant is the
unique piece whose recorded position is that square (as established by the
`set_piece` calls of `Player.__init__`), both rosters are full, the game is
UNFINISHED and it is White's turn. -/
def initState : GameState :=
  { board := fun c => (List.finRange 32).find? fun i => decide ((initPieceState i).pos = some c),
    pieces := initPieceState,
    whiteRoster := (List.range 16).map mkId,
    blackRoster := (List.range 16).map fun n => mkId (16 + n),
    gameState := GState.unfinished,
    turn := Color.white }

/-- Game states reachable from a fresh `ChessVar()` through the engine's two
mutators, `make_move` (any outcome; a rejected call keeps the state) and the
administrative `set_turn`. -/
inductive Reachable : GameState → Prop
  | init : Reachable initState
  | move (gs : GameState) (s1 s2 : List Char) :
      Reachable gs → Reachable (makeMove gs s1 s2).1
  | admin (gs : GameState) (s : List Char) :
      Reachable gs → Reachable (setTurn gs s)

/-- The bidirectional occupancy invariant: every occupied square's occupant
records that square as its own position, and every piece that is in neither
roster (a captured piece) has position `None`. -/
def Consistent (gs : GameState) : Prop :=
  (∀ c pid, gs.board c = some pid → (gs.pieces pid).pos = some c)
  ∧ (∀ pid : PieceId, pid ∉ gs.whiteRoster → pid ∉ gs.blackRoster →
      (gs.pieces pid).pos = none)

/-- Outcome of the spec's description of the sliding-piece path walk. -/
inductive WalkOutcome
  | reject
  | clear
  | captureAt (q : PieceId)
deriving DecidableEq

/-- The path-walking loop as the spec describes it (§4.2): repeatedly call the
stepper; `none` rejects; an occupied square is legal exactly when it is the
destination and holds an opposing piece (a capture); the destination reached
unoccupied is legal, non-capturing.  This is the spec-side definition used to
state the refinement claim about the source loop. -/
def walkSpec (gs : GameState) (p : PieceState) (fuel : Nat) (cur dest : Char × Char)
    (direction : Dir) : WalkOutcome :=
  match fuel with
  | 0 => WalkOutcome.reject
  | Nat.succ fuel =>
    match nextPosition p.ptype p.owner cur direction dest with
    | none => WalkOutcome.reject
    | some np =>
      match gs.board np with
      | some q =>
        if np = dest ∧ ¬ p.owner = (gs.pieces q).owner then WalkOutcome.captureAt q
        else WalkOutcome.reject
      | none => if np = dest then WalkOutcome.clear else walkSpec gs p fuel np dest direction

/-- A minimal endgame position used as concrete input for several claims:
White to move, a single white pawn on e4 (piece 0) and Black's single
remaining piece, a pawn on d5 (piece 16).  `make_move("e4","d5")` is a legal
capture of Black's last pawn. -/
def cexState : GameState :=
  { board := fun c =>
      if c = ('e', '4') then some (mkId 0)
      else if c = ('d', '5') then some (mkId 16) else none,
    pieces := fun i =>
      if i = mkId 0 then { ptype := PieceType.pawn, owner := Color.white, pos := some ('e', '4') }
      else if i = mkId 16 then
        { ptype := PieceType.pawn, owner := Color.black, pos := some ('d', '5') }
      else { ptype := PieceType.pawn, owner := Color.white, pos := none },
    whiteRoster := [mkId 0],
    blackRoster := [mkId 16],
    gameState := GState.unfinished,
    turn := Color.white }

/-- A position for the sliding-piece claims: a white rook on a1 (piece 8) and a
black pawn on a5 (piece 16); the rook's path a2,a3,a4 is clear and a5 holds an
opposing piece. -/
def sliderState : GameState :=
  { board := fun c =>
      if c = ('a', '1') then some (mkId 8)
      else if c = ('a', '5') then some (mkId 16) else none,
    pieces := fun i =>
      if i = mkId 8 then { ptype := PieceType.rook, owner := Color.white, pos := some ('a', '1') }
      else if i = mkId 16 then
        { ptype := PieceType.pawn, owner := Color.black, pos := some ('a', '5') }
      else { ptype := PieceType.pawn, owner := Color.white, pos := none },
    whiteRoster := [mkId 8],
    blackRoster := [mkId 16],
    gameState := GState.unfinished,
    turn := Color.white }

/-- The starting rank character of a pawn of the given colour. -/
def pawnStartRank : Color → Char
  | Color.white => '2'
  | Color.black => '7'

/-- The rank one square ahead of the starting rank, in the colour's forward
direction. -/
def oneAhead : Color → Char
  | Color.white => '3'
  | Color.black => '6'

/-- The rank two squares ahead of the starting rank. -/
def twoAhead : Color → Char
  | Color.white => '4'
  | Color.black => '5'

/-- The adjacent pairs of file letters, in increasing order. -/
def adjFilePairs : List (Char × Char) :=
  [('a', 'b'), ('b', 'c'), ('c', 'd'), ('d', 'e'), ('e', 'f'), ('f', 'g'), ('g', 'h')]

/-- Two file letters are neighbours (one square left or right of each other). -/
def fileAdj (f g : Char) : Prop := (f, g) ∈ adjFilePairs ∨ (g, f) ∈ adjFilePairs

/-- The roster (`piece_list`) of the player of the given colour. -/
def rosterOf (gs : GameState) : Color → List PieceId
  | Color.white => gs.whiteRoster
  | Color.black => gs.blackRoster

/-- The terminal state recording a win by the given colour. -/
def winState : Color → GState
  | Color.white => GState.whiteWon
  | Color.black => GState.blackWon

theorem classifyDir_some_ne (s d : Char × Char) (dir : Dir)
    (h : classifyDir s d = some dir) : s ≠ d := by
  intro he
  subst he
  simp [classifyDir] at h

theorem executeMove_snd (gs : GameState) (pid : PieceId) (sp dest : Char × Char) :
    (executeMove gs pid sp dest).2.isAccepted = true := by
  unfold executeMove
  dsimp only
  split <;> rfl

theorem executeMove_turn (gs : GameState) (pid : PieceId) (sp dest : Char × Char) :
    (executeMove gs pid sp dest).1.turn = gs.turn := by
  unfold executeMove
  dsimp only
  split <;> rfl

theorem executeMove_gameState (gs : GameState) (pid : PieceId) (sp dest : Char × Char) :
    (executeMove gs pid sp dest).1.gameState = gs.gameState := by
  unfold executeMove
  dsimp only
  split <;> rfl

theorem executeMove_ptype (gs : GameState) (pid : PieceId) (sp dest : Char × Char)
    (q : PieceId) : ((executeMove gs pid sp dest).1.pieces q).ptype = (gs.pieces q).ptype := by
  unfold executeMove
  dsimp only
  split
  · dsimp only
    split <;> rfl
  · dsimp only
    split
    · split <;> rfl
    · split <;> rfl

theorem executeMove_owner (gs : GameState) (pid : PieceId) (sp dest : Char × Char)
    (q : PieceId) : ((executeMove gs pid sp dest).1.pieces q).owner = (gs.pieces q).owner := by
  unfold executeMove
  dsimp only
  split
  · dsimp only
    split <;> rfl
  · dsimp only
    split
    · split <;> rfl
    · split <;> rfl

theorem pieceMove_turn (gs : GameState) (pid : PieceId) (dest : Char × Char) :
    (pieceMove gs pid dest).1.turn = gs.turn := by
  unfold pieceMove
  split
  · rfl
  · split
    · rfl
    · split
      · exact executeMove_turn gs pid _ dest
      · rfl

theorem pieceMove_gameState (gs : GameState) (pid : PieceId) (dest : Char × Char) :
    (pieceMove gs pid dest).1.gameState = gs.gameState := by
  unfold pieceMove
  split
  · rfl
  · split
    · rfl
    · split
      · exact executeMove_gameState gs pid _ dest
      · rfl

theorem pieceMove_reject_eq (gs : GameState) (pid : PieceId) (dest : Char × Char)
    (h : (pieceMove gs pid dest).2.isAccepted = false) :
    (pieceMove gs pid dest).1 = gs := by
  unfold pieceMove at *
  rcases hp : (gs.pieces pid).pos with _ | sp
  · simp [hp]
  · simp only [hp] at h ⊢
    rcases hc : classifyDir sp dest with _ | dir
    · simp [hc]
    · simp only [hc] at h ⊢
      by_cases hl : pieceLegal gs (gs.pieces pid) sp dest dir = true
      · rw [if_pos hl] at h
        rw [executeMove_snd gs pid sp dest] at h
        cases h
      · rw [if_neg hl] at h ⊢

/-- Claim C10: `set_turn` assigns the White player exactly when the argument is
the exact string "White"; every other argument (misspellings, other casings,
non-colour strings) silently assigns the Black player, with no validation. -/
theorem c10_set_turn (gs : GameState) (arg : List Char) :
    (setTurn gs arg).turn = if arg = whiteLabel then Color.white else Color.black := by
  unfold setTurn
  split <;> simp_all

/-- Claim C2 (code bug): in the endgame position `cexState`, the legal capture
e4xd5 makes `make_move` return the bare value True, identical to what a plain
non-capturing move (e2-e4 from the fresh game) returns; the caller learns
nothing about the captured piece, contradicting make_move's own docstring
("Legal move / capture --> Returns piece subtype object of captured piece"). -/
theorem c2_capture_returns_bare_true :
    (makeMove cexState ['e', '4'] ['d', '5']).2 = Except.ok true
    ∧ (makeMove initState ['e', '2'] ['e', '4']).2 = Except.ok true := by
  exact ⟨by decide, by decide⟩

/-- Claim C3: every rejected `make_move` call (whichever error it raises)
returns the engine state exactly as it was: board, rosters, turn and
game_state are unchanged, so the call can be retried. -/
theorem c3_rejection_preserves_state (gs : GameState) (s1 s2 : List Char) (e : Err)
    (h : (makeMove gs s1 s2).2 = Except.error e) :
    (makeMove gs s1 s2).1 = gs := by
  unfold makeMove at *
  by_cases hGo : gs.gameState = GState.whiteWon ∨ gs.gameState = GState.blackWon
  · simp [hGo]
  · simp only [if_neg hGo] at h ⊢
    rcases hB : boundsCheck s1 s2 with e' | u
    · simp [hB]
    · simp only [hB] at h ⊢
      rcases hP : getPositionState gs s1 with e' | op
      · simp [hP]
      · rcases op with _ | pid
        · simp [hP]
        · simp only [hP] at h ⊢
          by_cases hT : ¬ (gs.pieces pid).owner = gs.turn
          · simp [hT]
          · simp only [if_neg hT] at h ⊢
            rcases hK : parseKey s2 with _ | dest
            · simp [hK]
            · simp only [hK] at h ⊢
              rcases hR : (pieceMove gs pid dest).2 with _ | _ | cap | _
              · simp only [hR] at h ⊢
                exact pieceMove_reject_eq gs pid dest (by rw [hR]; rfl)
              · simp [hR] at h
              · simp [hR] at h
              · simp only [hR] at h ⊢
                exact pieceMove_reject_eq gs pid dest (by rw [hR]; rfl)

/-- Witness for C3: the rejected no-movement request e2-e2 on the fresh game
leaves the state equal to `initState`. -/
theorem c3_witness : (makeMove initState ['e', '2'] ['e', '2']).1 = initState :=
  c3_rejection_preserves_state initState ['e', '2'] ['e', '2'] Err.illegalMove (by decide)

theorem sliderWalk_capture_enemy (gs : GameState) (p : PieceState) (q : PieceId)
    (dest : Char × Char) (direction : Dir) (hq : gs.board dest = some q) :
    ∀ (fuel : Nat) (cur : Char × Char),
      sliderWalk gs p fuel cur dest direction = true →
      ¬ p.owner = (gs.pieces q).owner := by
  intro fuel
  induction fuel with
  | zero => intro cur hW; cases hW
  | succ n ih =>
    intro cur hW
    unfold sliderWalk at hW
    split at hW
    · cases hW
    · rename_i np hnp
      split at hW
      · rename_i hb
        split at hW
        · rename_i hd
          rw [hd] at hb
          rw [hb] at hq
          cases hq
        · exact ih np hW
      · rename_i r hb
        rcases of_decide_eq_true hW with ⟨hd, hno⟩
        rw [hd] at hb
        rw [hq] at hb
        injection hb with hrq
        rw [hrq]
        exact hno

theorem singleStepLegal_capture_enemy (gs : GameState) (p : PieceState)
    (sp dest : Char × Char) (direction : Dir) (q : PieceId)
    (hL : singleStepLegal gs p sp dest direction = true)
    (hq : gs.board dest = some q) :
    ¬ p.owner = (gs.pieces q).owner := by
  unfold singleStepLegal at hL
  split at hL
  · cases hL
  · rename_i np hnp
    split at hL
    · cases hL
    · rename_i hd
      have hd' : np = dest := not_not.mp hd
      split at hL
      · rename_i hb
        rw [hd'] at hb
        rw [hb] at hq
        cases hq
      · rename_i r hb
        have hno := of_decide_eq_true hL
        rw [hd'] at hb
        rw [hq] at hb
        injection hb with hrq
        rw [hrq]
        exact hno

theorem pawnLegal_capture_enemy (gs : GameState) (p : PieceState)
    (sp dest : Char × Char) (direction : Dir) (q : PieceId)
    (hL : pawnLegal gs p sp dest direction = true)
    (hq : gs.board dest = some q) :
    ¬ p.owner = (gs.pieces q).owner := by
  unfold pawnLegal at hL
  split at hL
  · split at hL
    · split at hL
      · cases hL
      · rename_i np hnp
        split at hL
        · cases hL
        · rename_i r hb
          rcases of_decide_eq_true hL with ⟨hd, hno⟩
          rw [hd] at hb
          rw [hq] at hb
          injection hb with hrq
          rw [hrq]
          exact hno
    · split at hL
      · cases hL
      · rename_i np1 hnp1
        split at hL
        · cases hL
        · rename_i hb1
          split at hL
          · rename_i hd1
            rw [hd1] at hb1
            rw [hb1] at hq
            cases hq
          · split at hL
            · cases hL
            · rename_i np2 hnp2
              split at hL
              · cases hL
              · rename_i hb2
                have hd2 := of_decide_eq_true hL
                rw [hd2] at hb2
                rw [hb2] at hq
                cases hq
  · split at hL
    · cases hL
    · rename_i np hnp
      split at hL
      · split at hL
        · cases hL
        · rename_i r hb
          rcases of_decide_eq_true hL with ⟨hd, hno⟩
          rw [hd] at hb
          rw [hq] at hb
          injection hb with hrq
          rw [hrq]
          exact hno
      · split at hL
        · rename_i hb
          have hd := of_decide_eq_true hL
          rw [hd] at hb
          rw [hb] at hq
          cases hq
        · cases hL

theorem pieceLegal_capture_enemy (gs : GameState) (p : PieceState)
    (sp dest : Char × Char) (direction : Dir) (q : PieceId)
    (hL : pieceLegal gs p sp dest direction = true)
    (hq : gs.board dest = some q) :
    ¬ p.owner = (gs.pieces q).owner := by
  unfold pieceLegal at hL
  rcases hpt : p.ptype with _ | _ | _ | _ | _ | _ <;> rw [hpt] at hL
  · exact pawnLegal_capture_enemy gs p sp dest direction q hL hq
  · exact singleStepLegal_capture_enemy gs p sp dest direction q hL hq
  · exact sliderWalk_capture_enemy gs p q dest direction hq 8 sp hL
  · exact sliderWalk_capture_enemy gs p q dest direction hq 8 sp hL
  · exact sliderWalk_capture_enemy gs p q dest direction hq 8 sp hL
  · exact singleStepLegal_capture_enemy gs p sp dest direction q hL hq

theorem pieceMove_capture_inv (gs : GameState) (pid : PieceId) (dest : Char × Char)
    (gs1 : GameState) (cap : PieceId)
    (hM : pieceMove gs pid dest = (gs1, MoveRes.capture cap)) :
    ∃ sp direction, (gs.pieces pid).pos = some sp ∧ classifyDir sp dest = some direction ∧
      pieceLegal gs (gs.pieces pid) sp dest direction = true ∧
      gs.board dest = some cap := by
  unfold pieceMove at hM
  split at hM
  · simp at hM
  · rename_i sp hp
    split at hM
    · simp at hM
    · rename_i dir hc
      split at hM
      · rename_i hl
        refine ⟨sp, dir, hp, hc, hl, ?_⟩
        have hne : ¬ dest = sp := fun he => classifyDir_some_ne sp dest dir hc he.symm
        unfold executeMove at hM
        dsimp only at hM
        rw [if_neg hne] at hM
        split at hM
        · simp at hM
        · rename_i c hbd
          have hsnd := congrArg Prod.snd hM
          simp only at hsnd
          injection hsnd with hcc
          rw [hbd, hcc]
      · simp at hM

theorem makeMove_capture_parts (gs : GameState) (s1 s2 : List Char) (pid : PieceId)
    (dest : Char × Char) (gs1 : GameState) (cap : PieceId)
    (hG : gs.gameState = GState.unfinished)
    (hB : boundsCheck s1 s2 = Except.ok ())
    (hP : getPositionState gs s1 = Except.ok (some pid))
    (hT : (gs.pieces pid).owner = gs.turn)
    (hK : parseKey s2 = some dest)
    (hM : pieceMove gs pid dest = (gs1, MoveRes.capture cap)) :
    (makeMove gs s1 s2).1.gameState =
      (if (rosterOf gs1 (gs1.pieces cap).owner).all
          (fun q => ! ((gs1.pieces q).ptype == (gs1.pieces cap).ptype))
        then winState gs.turn else GState.unfinished)
    ∧ (makeMove gs s1 s2).1.turn = Color.other gs.turn
    ∧ (makeMove gs s1 s2).2 = Except.ok true := by
  have hGo : ¬ (gs.gameState = GState.whiteWon ∨ gs.gameState = GState.blackWon) := by
    rw [hG]; rintro (h | h) <;> cases h
  have h1 : (pieceMove gs pid dest).1 = gs1 := by rw [hM]
  have h2 : (pieceMove gs pid dest).2 = MoveRes.capture cap := by rw [hM]
  have hturn : gs1.turn = gs.turn := by
    rw [← h1]; exact pieceMove_turn gs pid dest
  have hstate : gs1.gameState = gs.gameState := by
    rw [← h1]; exact pieceMove_gameState gs pid dest
  have hTo : ¬ ¬ (gs.pieces pid).owner = gs.turn := fun h => h hT
  unfold makeMove
  simp only [if_neg hGo, hB, hP, if_neg hTo, hK, h2, h1]
  rcases how : (gs1.pieces cap).owner with _ | _ <;> dsimp only [rosterOf] <;>
    [rcases hall : (gs1.whiteRoster.all
        fun q => ! ((gs1.pieces q).ptype == (gs1.pieces cap).ptype)) with _ | _;
     rcases hall : (gs1.blackRoster.all
        fun q => ! ((gs1.pieces q).ptype == (gs1.pieces cap).ptype)) with _ | _] <;>
    rcases ht : gs.turn with _ | _ <;>
      simp [hturn, hstate, hG, ht, winState, Color.other]

/-- Claim C1 (amended): for a legal capture by `make_move`, if the captured
piece was the last of its type in its owner's roster then game_state is set to
the mover's win state (WHITE_WON for White, BLACK_WON for Black); the turn is
then flipped to the other player in every case — including the winning one,
since the source flips the turn unconditionally after a capture. -/
theorem c1_capture_win_and_turn (gs : GameState) (s1 s2 : List Char) (pid : PieceId)
    (dest : Char × Char) (gs1 : GameState) (cap : PieceId)
    (hG : gs.gameState = GState.unfinished)
    (hB : boundsCheck s1 s2 = Except.ok ())
    (hP : getPositionState gs s1 = Except.ok (some pid))
    (hT : (gs.pieces pid).owner = gs.turn)
    (hK : parseKey s2 = some dest)
    (hM : pieceMove gs pid dest = (gs1, MoveRes.capture cap)) :
    ((rosterOf gs1 (gs1.pieces cap).owner).all
        (fun q => ! ((gs1.pieces q).ptype == (gs1.pieces cap).ptype)) = true →
      (makeMove gs s1 s2).1.gameState = winState gs.turn)
    ∧ ((rosterOf gs1 (gs1.pieces cap).owner).all
        (fun q => ! ((gs1.pieces q).ptype == (gs1.pieces cap).ptype)) = false →
      (makeMove gs s1 s2).1.gameState = GState.unfinished)
    ∧ (makeMove gs s1 s2).1.turn = Color.other gs.turn := by
  have hparts := makeMove_capture_parts gs s1 s2 pid dest gs1 cap hG hB hP hT hK hM
  refine ⟨fun hall => ?_, fun hall => ?_, hparts.2.1⟩
  · rw [hparts.1, if_pos hall]
  · rw [hparts.1, hall]
    rfl

/-- Witness for C1: in `cexState`, White's capture of Black's last pawn sets
game_state to White's win state and flips the turn to Black. -/
theorem c1_witness :
    (makeMove cexState ['e', '4'] ['d', '5']).1.gameState = winState Color.white
    ∧ (makeMove cexState ['e', '4'] ['d', '5']).1.turn = Color.other Color.white := by
  have hM : pieceMove cexState (mkId 0) ('d', '5') =
      ((pieceMove cexState (mkId 0) ('d', '5')).1, MoveRes.capture (mkId 16)) :=
    Prod.ext rfl (by decide)
  have h := c1_capture_win_and_turn cexState ['e', '4'] ['d', '5'] (mkId 0) ('d', '5')
    (pieceMove cexState (mkId 0) ('d', '5')).1 (mkId 16)
    (by decide) (by decide) (by decide) (by decide) (by decide) hM
  exact ⟨h.1 (by decide), h.2.2⟩

/-- Claim C4: for a legal capture by `make_move`, the mover wins exactly when
zero pieces of the captured piece's type survive in the opponent's roster
after the move has been applied (the captured piece itself, already removed
from that roster, does not count). -/
theorem c4_win_counts_survivors (gs : GameState) (s1 s2 : List Char) (pid : PieceId)
    (dest : Char × Char) (gs1 : GameState) (cap : PieceId)
    (hG : gs.gameState = GState.unfinished)
    (hB : boundsCheck s1 s2 = Except.ok ())
    (hP : getPositionState gs s1 = Except.ok (some pid))
    (hT : (gs.pieces pid).owner = gs.turn)
    (hK : parseKey s2 = some dest)
    (hM : pieceMove gs pid dest = (gs1, MoveRes.capture cap)) :
    (makeMove gs s1 s2).1.gameState = winState gs.turn ↔
      (rosterOf gs1 (Color.other gs.turn)).countP
        (fun q => (gs1.pieces q).ptype == (gs1.pieces cap).ptype) = 0 := by
  have hparts := makeMove_capture_parts gs s1 s2 pid dest gs1 cap hG hB hP hT hK hM
  obtain ⟨sp, dir, hp, hc, hl, hbd⟩ := pieceMove_capture_inv gs pid dest gs1 cap hM
  have howner : ¬ (gs.pieces pid).owner = (gs.pieces cap).owner :=
    pieceLegal_capture_enemy gs (gs.pieces pid) sp dest dir cap hl hbd
  have h1 : (pieceMove gs pid dest).1 = gs1 := by rw [hM]
  have hown1 : (gs1.pieces cap).owner = (gs.pieces cap).owner := by
    rw [← h1]
    simp only [pieceMove, hp, hc]
    rw [if_pos hl]
    exact executeMove_owner gs pid sp dest cap
  have hcown : (gs1.pieces cap).owner = Color.other gs.turn := by
    rw [hown1]
    rw [hT] at howner
    rcases ho : (gs.pieces cap).owner with _ | _ <;>
      rcases ht : gs.turn with _ | _ <;>
        simp_all [Color.other]
  rw [hparts.1, ← hcown]
  have hwin : ¬ GState.unfinished = winState gs.turn := by
    rcases gs.turn with _ | _ <;> intro h <;> cases h
  constructor
  · intro hif
    by_cases hall : (rosterOf gs1 (gs1.pieces cap).owner).all
        (fun q => ! ((gs1.pieces q).ptype == (gs1.pieces cap).ptype)) = true
    · rw [List.countP_eq_zero]
      intro a ha
      have := (List.all_eq_true.mp hall) a ha
      simp only [Bool.not_eq_true'] at this
      simp [this]
    · rw [if_neg hall] at hif
      exact absurd hif hwin
  · intro hcount
    have hall : (rosterOf gs1 (gs1.pieces cap).owner).all
        (fun q => ! ((gs1.pieces q).ptype == (gs1.pieces cap).ptype)) = true := by
      rw [List.all_eq_true]
      intro a ha
      have := (List.countP_eq_zero.mp hcount) a ha
      simp only [Bool.not_eq_true] at this
      simp [this]
    rw [if_pos hall]

/-- Witness for C4: in `cexState`, after e4xd5 no black pawn survives and the
game state is indeed White's win state. -/
theorem c4_witness :
    (makeMove cexState ['e', '4'] ['d', '5']).1.gameState = winState Color.white := by
  have hM : pieceMove cexState (mkId 0) ('d', '5') =
      ((pieceMove cexState (mkId 0) ('d', '5')).1, MoveRes.capture (mkId 16)) :=
    Prod.ext rfl (by decide)
  exact (c4_win_counts_survivors cexState ['e', '4'] ['d', '5'] (mkId 0) ('d', '5')
    (pieceMove cexState (mkId 0) ('d', '5')).1 (mkId 16)
    (by decide) (by decide) (by decide) (by decide) (by decide) hM).mpr (by decide)

theorem unfinished_not_over (gs : GameState) (h : gs.gameState = GState.unfinished) :
    ¬ (gs.gameState = GState.whiteWon ∨ gs.gameState = GState.blackWon) := by
  rw [h]; rintro (hh | hh) <;> cases hh

theorem list_len2 (s : List Char) (h : s.length = 2) : ∃ a b, s = [a, b] := by
  rcases s with _ | ⟨a, _ | ⟨b, _ | ⟨c, t⟩⟩⟩
  · cases h
  · cases h
  · exact ⟨a, b, rfl⟩
  · simp at h

theorem parseKey_pair (a b : Char) :
    parseKey [a, b] =
      if ('a' ≤ a ∧ a ≤ 'h') ∧ ('1' ≤ b ∧ b ≤ '8') then some (a, b) else none := rfl

theorem boundsCheck_pair (a b c d : Char) :
    boundsCheck [a, b] [c, d] =
      if a < 'a' ∨ a > 'h' then Except.error Err.illegalMove
      else if c < 'a' ∨ c > 'h' then Except.error Err.illegalMove
      else if b < '1' ∨ b > '8' then Except.error Err.illegalMove
      else if d < '1' ∨ d > '8' then Except.error Err.illegalMove
      else Except.ok () := rfl

theorem charAt_error (s : List Char) (i : Nat) (e : Err)
    (h : charAt s i = Except.error e) : e = Err.indexError := by
  unfold charAt at h
  split at h
  · cases h
  · injection h with h'
    exact h'.symm

theorem getPositionState_error (gs : GameState) (s : List Char) (e : Err)
    (h : getPositionState gs s = Except.error e) : e = Err.keyError := by
  unfold getPositionState at h
  split at h
  · injection h with h'
    exact h'.symm
  · cases h

theorem boundsCheck_error (s1 s2 : List Char) (e : Err)
    (h : boundsCheck s1 s2 = Except.error e) :
    e = Err.illegalMove ∨ e = Err.indexError := by
  unfold boundsCheck at h
  split at h
  · rename_i e' heq
    injection h with h'
    exact Or.inr (h' ▸ charAt_error s1 0 e' heq)
  · split at h
    · injection h with h'
      exact Or.inl h'.symm
    · split at h
      · rename_i e' heq
        injection h with h'
        exact Or.inr (h' ▸ charAt_error s2 0 e' heq)
      · split at h
        · injection h with h'
          exact Or.inl h'.symm
        · split at h
          · rename_i e' heq
            injection h with h'
            exact Or.inr (h' ▸ charAt_error s1 1 e' heq)
          · split at h
            · injection h with h'
              exact Or.inl h'.symm
            · split at h
              · rename_i e' heq
                injection h with h'
                exact Or.inr (h' ▸ charAt_error s2 1 e' heq)
              · split at h
                · injection h with h'
                  exact Or.inl h'.symm
                · cases h

/-- Claim C7 (amended): `make_move` validates in this order — GameOver first
when the game has ended (for any argument strings, valid or not); then, for
two-character coordinate strings, IllegalMove when either coordinate is
outside a1..h8; then IllegalMove when the origin square is empty; then
OutOfTurn when the origin piece is not the turn holder's; and only then is the
piece's movement legality evaluated (an accepted move succeeds, a rejected one
raises IllegalMove).  Coordinate strings that are not two characters long are
not covered by this staging: they abort with an uncaught IndexError or
KeyError instead (see C8). -/
theorem c7_validation_order (gs : GameState) (s1 s2 : List Char) :
    (¬ gs.gameState = GState.unfinished →
      (makeMove gs s1 s2).2 = Except.error Err.gameOver)
    ∧ (gs.gameState = GState.unfinished → s1.length = 2 → s2.length = 2 →
        ((parseKey s1 = none ∨ parseKey s2 = none) →
          (makeMove gs s1 s2).2 = Except.error Err.illegalMove)
        ∧ (∀ c1 c2 : Char × Char, parseKey s1 = some c1 → parseKey s2 = some c2 →
            (gs.board c1 = none → (makeMove gs s1 s2).2 = Except.error Err.illegalMove)
            ∧ (∀ pid : PieceId, gs.board c1 = some pid →
                (¬ (gs.pieces pid).owner = gs.turn →
                  (makeMove gs s1 s2).2 = Except.error Err.outOfTurn)
                ∧ ((gs.pieces pid).owner = gs.turn →
                    ((pieceMove gs pid c2).2 = MoveRes.rejected →
                      (makeMove gs s1 s2).2 = Except.error Err.illegalMove)
                    ∧ ((pieceMove gs pid c2).2.isAccepted = true →
                        (makeMove gs s1 s2).2 = Except.ok true))))) := by
  constructor
  · intro hne
    rcases hgs : gs.gameState with _ | _ | _
    · exact absurd hgs hne
    · simp [makeMove, hgs]
    · simp [makeMove, hgs]
  · intro hunf h1 h2
    have hGo := unfinished_not_over gs hunf
    obtain ⟨a, b, rfl⟩ := list_len2 s1 h1
    obtain ⟨c, d, rfl⟩ := list_len2 s2 h2
    constructor
    · intro hpn
      by_cases ha : a < 'a' ∨ a > 'h'
      · simp [makeMove, if_neg hGo, boundsCheck_pair, ha]
      · by_cases hc : c < 'a' ∨ c > 'h'
        · simp [makeMove, if_neg hGo, boundsCheck_pair, ha, hc]
        · by_cases hb : b < '1' ∨ b > '8'
          · simp [makeMove, if_neg hGo, boundsCheck_pair, ha, hc, hb]
          · by_cases hd : d < '1' ∨ d > '8'
            · simp [makeMove, if_neg hGo, boundsCheck_pair, ha, hc, hb, hd]
            · exfalso
              push_neg at ha hc hb hd
              rcases hpn with h | h <;> rw [parseKey_pair] at h
              · rw [if_pos ⟨ha, hb⟩] at h
                cases h
              · rw [if_pos ⟨hc, hd⟩] at h
                cases h
    · intro c1 c2 hp1 hp2
      rw [parseKey_pair] at hp1 hp2
      have hab : ('a' ≤ a ∧ a ≤ 'h') ∧ ('1' ≤ b ∧ b ≤ '8') := by
        by_contra hcon
        rw [if_neg hcon] at hp1
        cases hp1
      have hcd : ('a' ≤ c ∧ c ≤ 'h') ∧ ('1' ≤ d ∧ d ≤ '8') := by
        by_contra hcon
        rw [if_neg hcon] at hp2
        cases hp2
      rw [if_pos hab] at hp1
      rw [if_pos hcd] at hp2
      injection hp1 with hp1
      injection hp2 with hp2
      have hna : ¬ (a < 'a' ∨ a > 'h') := by
        push_neg
        exact hab.1
      have hnc : ¬ (c < 'a' ∨ c > 'h') := by
        push_neg
        exact hcd.1
      have hnb : ¬ (b < '1' ∨ b > '8') := by
        push_neg
        exact hab.2
      have hnd : ¬ (d < '1' ∨ d > '8') := by
        push_neg
        exact hcd.2
      have hBok : boundsCheck [a, b] [c, d] = Except.ok () := by
        rw [boundsCheck_pair, if_neg hna, if_neg hnc, if_neg hnb, if_neg hnd]
      have hPok : getPositionState gs [a, b] = Except.ok (gs.board c1) := by
        unfold getPositionState
        rw [parseKey_pair, if_pos hab, ← hp1]
      constructor
      · intro hnone
        rw [hnone] at hPok
        simp [makeMove, if_neg hGo, hBok, hPok]
      · intro pid hsome
        rw [hsome] at hPok
        constructor
        · intro hT
          simp [makeMove, if_neg hGo, hBok, hPok, if_pos hT]
        · intro hT
          have hTo : ¬ ¬ (gs.pieces pid).owner = gs.turn := fun h => h hT
          have hK : parseKey [c, d] = some c2 := by
            rw [parseKey_pair, if_pos hcd, ← hp2]
          constructor
          · intro hrej
            simp [makeMove, if_neg hGo, hBok, hPok, if_neg hTo, hK, hrej]
          · intro hacc
            rcases hres : (pieceMove gs pid c2).2 with _ | _ | cap | _ <;>
              rw [hres] at hacc <;> try cases hacc
            · simp [makeMove, if_neg hGo, hBok, hPok, if_neg hTo, hK, hres]
            · simp [makeMove, if_neg hGo, hBok, hPok, if_neg hTo, hK, hres]

/-- Witness for C7: on the fresh game, the staged validation lets e2-e4 through
to the movement test, which accepts it. -/
theorem c7_witness : (makeMove initState ['e', '2'] ['e', '4']).2 = Except.ok true := by
  have h := (c7_validation_order initState ['e', '2'] ['e', '4']).2
    (by decide) (by decide) (by decide)
  exact (((h.2 ('e', '2') ('e', '4') (by decide) (by decide)).2
    (mkId 4) (by decide)).2 (by decide)).2 (by decide)

/-- Claim C7, counterexample: with the game unfinished, the empty origin
string is outside a1..h8 yet is not rejected with IllegalMove — indexing
`string1[0]` raises an uncaught IndexError instead. -/
theorem c7_counterexample :
    initState.gameState = GState.unfinished
    ∧ (makeMove initState [] ['a', '2']).2 = Except.error Err.indexError
    ∧ ¬ (makeMove initState [] ['a', '2']).2 = Except.error Err.illegalMove := by
  exact ⟨rfl, by decide, by decide⟩

/-- Claim C8 (amended): with the game unfinished, any call whose origin string
is not exactly a file letter a-h followed by a rank digit 1-8 is rejected, but
not always through the engine's own error kinds: an examined out-of-range
character raises IllegalMoveError, while a too-short string raises an uncaught
IndexError and an otherwise malformed string an uncaught KeyError at the board
dictionary lookup; a malformed destination string likewise never succeeds and
can additionally surface OutOfTurn first. -/
theorem c8_malformed_rejected (gs : GameState) (s1 s2 : List Char)
    (hG : gs.gameState = GState.unfinished) :
    (parseKey s1 = none →
      (makeMove gs s1 s2).2 = Except.error Err.illegalMove
      ∨ (makeMove gs s1 s2).2 = Except.error Err.indexError
      ∨ (makeMove gs s1 s2).2 = Except.error Err.keyError)
    ∧ (parseKey s2 = none →
      (makeMove gs s1 s2).2 = Except.error Err.illegalMove
      ∨ (makeMove gs s1 s2).2 = Except.error Err.outOfTurn
      ∨ (makeMove gs s1 s2).2 = Except.error Err.indexError
      ∨ (makeMove gs s1 s2).2 = Except.error Err.keyError) := by
  have hGo := unfinished_not_over gs hG
  constructor
  · intro hp1
    rcases hB : boundsCheck s1 s2 with e | u
    · rcases boundsCheck_error s1 s2 e hB with rfl | rfl
      · left
        simp [makeMove, if_neg hGo, hB]
      · right; left
        simp [makeMove, if_neg hGo, hB]
    · right; right
      simp [makeMove, if_neg hGo, hB, getPositionState, hp1]
  · intro hp2
    rcases hB : boundsCheck s1 s2 with e | u
    · rcases boundsCheck_error s1 s2 e hB with rfl | rfl
      · left
        simp [makeMove, if_neg hGo, hB]
      · right; right; left
        simp [makeMove, if_neg hGo, hB]
    · rcases hP : getPositionState gs s1 with e | op
      · have := getPositionState_error gs s1 e hP
        subst this
        right; right; right
        simp [makeMove, if_neg hGo, hB, hP]
      · rcases op with _ | pid
        · left
          simp [makeMove, if_neg hGo, hB, hP]
        · by_cases hT : ¬ (gs.pieces pid).owner = gs.turn
          · right; left
            simp [makeMove, if_neg hGo, hB, hP, if_pos hT]
          · right; right; right
            simp [makeMove, if_neg hGo, hB, hP, if_neg hT, hp2]

/-- Witness for C8: the origin string "e44" is malformed and the call on the
fresh game surfaces one of the listed outcomes (in fact an uncaught KeyError). -/
theorem c8_witness :
    (makeMove initState ['e', '4', '4'] ['e', '2']).2 = Except.error Err.illegalMove
    ∨ (makeMove initState ['e', '4', '4'] ['e', '2']).2 = Except.error Err.indexError
    ∨ (makeMove initState ['e', '4', '4'] ['e', '2']).2 = Except.error Err.keyError :=
  (c8_malformed_rejected initState ['e', '4', '4'] ['e', '2'] (by decide)).1 (by decide)

/-- Claim C8, counterexample: the malformed origin string "e44" passes the
character range checks but fails the board-dictionary lookup, surfacing an
uncaught KeyError — which is not one of the engine's declared (recoverable)
error kinds. -/
theorem c8_counterexample :
    (makeMove initState ['e', '4', '4'] ['e', '2']).2 = Except.error Err.keyError
    ∧ Err.isEngineError Err.keyError = false := by
  exact ⟨by decide, rfl⟩

theorem classifyDir_straight_up (f r1 r2 : Char) (h : r1 < r2) :
    classifyDir (f, r1) (f, r2) = some Dir.up := by
  simp [classifyDir, h]

theorem classifyDir_straight_down (f r1 r2 : Char) (h : r2 < r1) :
    classifyDir (f, r1) (f, r2) = some Dir.down := by
  simp [classifyDir, asymm h, ne_of_gt h]

theorem classifyDir_dUR (f r1 g r2 : Char) (h1 : f < g) (h2 : r1 < r2) :
    classifyDir (f, r1) (g, r2) = some Dir.dUpRight := by
  simp [classifyDir, h1, h2]

theorem classifyDir_dUL (f r1 g r2 : Char) (h1 : g < f) (h2 : r1 < r2) :
    classifyDir (f, r1) (g, r2) = some Dir.dUpLeft := by
  simp [classifyDir, asymm h1, ne_of_gt h1, h2]

theorem classifyDir_dDR (f r1 g r2 : Char) (h1 : f < g) (h2 : r2 < r1) :
    classifyDir (f, r1) (g, r2) = some Dir.dDownRight := by
  simp [classifyDir, h1, asymm h2, ne_of_gt h2]

theorem classifyDir_dDL (f r1 g r2 : Char) (h1 : g < f) (h2 : r2 < r1) :
    classifyDir (f, r1) (g, r2) = some Dir.dDownLeft := by
  simp [classifyDir, asymm h1, ne_of_gt h1, asymm h2, ne_of_gt h2]

theorem isAccepted_rejected : MoveRes.rejected.isAccepted = false := rfl

theorem pawnStraight1_start (gs : GameState) (pid : PieceId) (c : Color)
    (f r1 r2 : Char) (d : Dir)
    (ht : (gs.pieces pid).ptype = PieceType.pawn)
    (hc : (gs.pieces pid).owner = c)
    (hpos : (gs.pieces pid).pos = some (f, r1))
    (hstart : (r1 = '2' ∧ c = Color.white) ∨ (r1 = '7' ∧ c = Color.black))
    (hcd : classifyDir (f, r1) (f, r2) = some d)
    (hdiag : d.isDiag = false)
    (hnp : nextPosition PieceType.pawn c (f, r1) d (f, r2) = some (f, r2)) :
    (pieceMove gs pid (f, r2)).2.isAccepted = true ↔ gs.board (f, r2) = none := by
  have hsc : (r1 = '2' ∧ (gs.pieces pid).owner = Color.white)
      ∨ (r1 = '7' ∧ (gs.pieces pid).owner = Color.black) := by
    rcases hstart with ⟨h1, h2⟩ | ⟨h1, h2⟩
    · exact Or.inl ⟨h1, hc.trans h2⟩
    · exact Or.inr ⟨h1, hc.trans h2⟩
  rw [← hc] at hnp
  simp only [pieceMove, hpos, hcd, pieceLegal, ht, pawnLegal, if_pos hsc, hdiag,
    Bool.false_eq_true, if_false, hnp]
  cases hb : gs.board (f, r2) <;> simp [hb, executeMove_snd, isAccepted_rejected]

theorem pawnStraight2_start (gs : GameState) (pid : PieceId) (c : Color)
    (f r1 r2 r3 : Char) (d : Dir)
    (ht : (gs.pieces pid).ptype = PieceType.pawn)
    (hc : (gs.pieces pid).owner = c)
    (hpos : (gs.pieces pid).pos = some (f, r1))
    (hstart : (r1 = '2' ∧ c = Color.white) ∨ (r1 = '7' ∧ c = Color.black))
    (hcd : classifyDir (f, r1) (f, r3) = some d)
    (hdiag : d.isDiag = false)
    (hnp1 : nextPosition PieceType.pawn c (f, r1) d (f, r3) = some (f, r2))
    (hnp2 : nextPosition PieceType.pawn c (f, r2) d (f, r3) = some (f, r3))
    (hne : ¬ ((f, r2) = ((f, r3) : Char × Char))) :
    (pieceMove gs pid (f, r3)).2.isAccepted = true ↔
      (gs.board (f, r2) = none ∧ gs.board (f, r3) = none) := by
  have hsc : (r1 = '2' ∧ (gs.pieces pid).owner = Color.white)
      ∨ (r1 = '7' ∧ (gs.pieces pid).owner = Color.black) := by
    rcases hstart with ⟨h1, h2⟩ | ⟨h1, h2⟩
    · exact Or.inl ⟨h1, hc.trans h2⟩
    · exact Or.inr ⟨h1, hc.trans h2⟩
  rw [← hc] at hnp1 hnp2
  simp only [pieceMove, hpos, hcd, pieceLegal, ht, pawnLegal, if_pos hsc, hdiag,
    Bool.false_eq_true, if_false, hnp1]
  cases hb1 : gs.board (f, r2)
  · simp only [hb1, if_neg hne, hnp2]
    cases hb2 : gs.board (f, r3) <;> simp [hb2, executeMove_snd, isAccepted_rejected]
  · simp [hb1, isAccepted_rejected]

theorem pawnDiag_start (gs : GameState) (pid : PieceId) (c : Color)
    (f r1 g r2 : Char) (d : Dir)
    (ht : (gs.pieces pid).ptype = PieceType.pawn)
    (hc : (gs.pieces pid).owner = c)
    (hpos : (gs.pieces pid).pos = some (f, r1))
    (hstart : (r1 = '2' ∧ c = Color.white) ∨ (r1 = '7' ∧ c = Color.black))
    (hcd : classifyDir (f, r1) (g, r2) = some d)
    (hdiag : d.isDiag = true)
    (hnp : nextPosition PieceType.pawn c (f, r1) d (g, r2) = some (g, r2)) :
    (pieceMove gs pid (g, r2)).2.isAccepted = true ↔
      ∃ q, gs.board (g, r2) = some q ∧ ¬ (gs.pieces q).owner = c := by
  have hsc : (r1 = '2' ∧ (gs.pieces pid).owner = Color.white)
      ∨ (r1 = '7' ∧ (gs.pieces pid).owner = Color.black) := by
    rcases hstart with ⟨h1, h2⟩ | ⟨h1, h2⟩
    · exact Or.inl ⟨h1, hc.trans h2⟩
    · exact Or.inr ⟨h1, hc.trans h2⟩
  rw [← hc] at hnp
  simp only [pieceMove, hpos, hcd, pieceLegal, ht, pawnLegal, if_pos hsc, hdiag, if_true,
    hnp]
  cases hb : gs.board (g, r2)
  · simp [hb, isAccepted_rejected]
  · rename_i q
    by_cases ho : (gs.pieces q).owner = c
    · have ho' : ¬ ¬ (gs.pieces pid).owner = (gs.pieces q).owner := by
        rw [hc, ho]
        exact fun h => h rfl
      simp [hb, ho, ho', hc, isAccepted_rejected]
    · have ho' : ¬ (gs.pieces pid).owner = (gs.pieces q).owner := by
        rw [hc]
        exact fun h => ho h.symm
      simp [hb, ho, ho', executeMove_snd, isAccepted_rejected]

/-- Claim C5: a pawn still on its colour's starting rank (rank 2 for White,
rank 7 for Black) may move straight forward one or two squares exactly when
every intermediate square and the destination are unoccupied, and may move
diagonally forward one square exactly when the destination holds an opposing
piece (so a diagonal onto an empty square or onto an own piece is rejected). -/
theorem c5_pawn_start_rank (gs : GameState) (pid : PieceId) (c : Color) (f : Char)
    (hf : f ∈ fileChars)
    (ht : (gs.pieces pid).ptype = PieceType.pawn)
    (hc : (gs.pieces pid).owner = c)
    (hpos : (gs.pieces pid).pos = some (f, pawnStartRank c)) :
    ((pieceMove gs pid (f, oneAhead c)).2.isAccepted = true ↔
      gs.board (f, oneAhead c) = none)
    ∧ ((pieceMove gs pid (f, twoAhead c)).2.isAccepted = true ↔
      (gs.board (f, oneAhead c) = none ∧ gs.board (f, twoAhead c) = none))
    ∧ (∀ g : Char, fileAdj f g →
        ((pieceMove gs pid (g, oneAhead c)).2.isAccepted = true ↔
          ∃ q, gs.board (g, oneAhead c) = some q ∧ ¬ (gs.pieces q).owner = c)) := by
  rcases c with _ | _
  · simp only [pawnStartRank] at hpos
    simp only [oneAhead, twoAhead]
    refine ⟨?_, ?_, ?_⟩
    · exact pawnStraight1_start gs pid Color.white f '2' '3' Dir.up ht hc hpos
        (Or.inl ⟨rfl, rfl⟩) (classifyDir_straight_up f '2' '3' (by decide)) rfl rfl
    · exact pawnStraight2_start gs pid Color.white f '2' '3' '4' Dir.up ht hc hpos
        (Or.inl ⟨rfl, rfl⟩) (classifyDir_straight_up f '2' '4' (by decide)) rfl rfl rfl
        (by simp)
    · intro g hadj
      rcases hadj with hm | hm
      · have hfg : f < g ∧ iteratePositionStr PieceType.pawn f 1 none = some g := by
          simp only [adjFilePairs, List.mem_cons, List.not_mem_nil, or_false,
            Prod.mk.injEq] at hm
          rcases hm with ⟨rfl, rfl⟩ | ⟨rfl, rfl⟩ | ⟨rfl, rfl⟩ | ⟨rfl, rfl⟩ | ⟨rfl, rfl⟩ |
            ⟨rfl, rfl⟩ | ⟨rfl, rfl⟩ <;> exact ⟨by decide, rfl⟩
        refine pawnDiag_start gs pid Color.white f '2' g '3' Dir.dUpRight ht hc hpos
          (Or.inl ⟨rfl, rfl⟩) (classifyDir_dUR f '2' g '3' hfg.1 (by decide)) rfl ?_
        simp [nextPosition, hfg.2,
          show iteratePositionStr PieceType.pawn '2' 1 none = some '3' from rfl]
      · have hfg : g < f ∧ iteratePositionStr PieceType.pawn f 0 none = some g := by
          simp only [adjFilePairs, List.mem_cons, List.not_mem_nil, or_false,
            Prod.mk.injEq] at hm
          rcases hm with ⟨rfl, rfl⟩ | ⟨rfl, rfl⟩ | ⟨rfl, rfl⟩ | ⟨rfl, rfl⟩ | ⟨rfl, rfl⟩ |
            ⟨rfl, rfl⟩ | ⟨rfl, rfl⟩ <;> exact ⟨by decide, rfl⟩
        refine pawnDiag_start gs pid Color.white f '2' g '3' Dir.dUpLeft ht hc hpos
          (Or.inl ⟨rfl, rfl⟩) (classifyDir_dUL f '2' g '3' hfg.1 (by decide)) rfl ?_
        simp [nextPosition, hfg.2,
          show iteratePositionStr PieceType.pawn '2' 1 none = some '3' from rfl]
  · simp only [pawnStartRank] at hpos
    simp only [oneAhead, twoAhead]
    refine ⟨?_, ?_, ?_⟩
    · exact pawnStraight1_start gs pid Color.black f '7' '6' Dir.down ht hc hpos
        (Or.inr ⟨rfl, rfl⟩) (classifyDir_straight_down f '7' '6' (by decide)) rfl rfl
    · exact pawnStraight2_start gs pid Color.black f '7' '6' '5' Dir.down ht hc hpos
        (Or.inr ⟨rfl, rfl⟩) (classifyDir_straight_down f '7' '5' (by decide)) rfl rfl rfl
        (by simp)
    · intro g hadj
      rcases hadj with hm | hm
      · have hfg : f < g ∧ iteratePositionStr PieceType.pawn f 1 none = some g := by
          simp only [adjFilePairs, List.mem_cons, List.not_mem_nil, or_false,
            Prod.mk.injEq] at hm
          rcases hm with ⟨rfl, rfl⟩ | ⟨rfl, rfl⟩ | ⟨rfl, rfl⟩ | ⟨rfl, rfl⟩ | ⟨rfl, rfl⟩ |
            ⟨rfl, rfl⟩ | ⟨rfl, rfl⟩ <;> exact ⟨by decide, rfl⟩
        refine pawnDiag_start gs pid Color.black f '7' g '6' Dir.dDownRight ht hc hpos
          (Or.inr ⟨rfl, rfl⟩) (classifyDir_dDR f '7' g '6' hfg.1 (by decide)) rfl ?_
        simp [nextPosition, hfg.2,
          show iteratePositionStr PieceType.pawn '7' 0 none = some '6' from rfl]
      · have hfg : g < f ∧ iteratePositionStr PieceType.pawn f 0 none = some g := by
          simp only [adjFilePairs, List.mem_cons, List.not_mem_nil, or_false,
            Prod.mk.injEq] at hm
          rcases hm with ⟨rfl, rfl⟩ | ⟨rfl, rfl⟩ | ⟨rfl, rfl⟩ | ⟨rfl, rfl⟩ | ⟨rfl, rfl⟩ |
            ⟨rfl, rfl⟩ | ⟨rfl, rfl⟩ <;> exact ⟨by decide, rfl⟩
        refine pawnDiag_start gs pid Color.black f '7' g '6' Dir.dDownLeft ht hc hpos
          (Or.inr ⟨rfl, rfl⟩) (classifyDir_dDL f '7' g '6' hfg.1 (by decide)) rfl ?_
        simp [nextPosition, hfg.2,
          show iteratePositionStr PieceType.pawn '7' 0 none = some '6' from rfl]

/-- Witness for C5: on the fresh game the e2 pawn's one-square advance to the
empty e3 is accepted. -/
theorem c5_witness :
    (pieceMove initState (mkId 4) (('e' : Char), '3')).2.isAccepted = true :=
  ((c5_pawn_start_rank initState (mkId 4) Color.white 'e' (by decide) (by decide)
    (by decide) (by decide)).1).mpr (by decide)

theorem executeMove_snd_none (gs : GameState) (pid : PieceId) (sp dest : Char × Char)
    (hne : ¬ dest = sp) (h : gs.board dest = none) :
    (executeMove gs pid sp dest).2 = MoveRes.moved := by
  unfold executeMove
  dsimp only
  rw [if_neg hne, h]

theorem executeMove_snd_some (gs : GameState) (pid : PieceId) (sp dest : Char × Char)
    (q : PieceId) (hne : ¬ dest = sp) (h : gs.board dest = some q) :
    (executeMove gs pid sp dest).2 = MoveRes.capture q := by
  unfold executeMove
  dsimp only
  rw [if_neg hne, h]

theorem walkSpec_vs_sliderWalk (gs : GameState) (p : PieceState) (dest : Char × Char)
    (direction : Dir) :
    ∀ (fuel : Nat) (cur : Char × Char),
      (walkSpec gs p fuel cur dest direction = WalkOutcome.reject →
        sliderWalk gs p fuel cur dest direction = false)
      ∧ (walkSpec gs p fuel cur dest direction = WalkOutcome.clear →
        gs.board dest = none ∧ sliderWalk gs p fuel cur dest direction = true)
      ∧ (∀ q, walkSpec gs p fuel cur dest direction = WalkOutcome.captureAt q →
        gs.board dest = some q ∧ ¬ p.owner = (gs.pieces q).owner
          ∧ sliderWalk gs p fuel cur dest direction = true) := by
  intro fuel
  induction fuel with
  | zero =>
    intro cur
    refine ⟨fun _ => rfl, fun h => ?_, fun q h => ?_⟩ <;> cases h
  | succ n ih =>
    intro cur
    unfold walkSpec sliderWalk
    rcases hnp : nextPosition p.ptype p.owner cur direction dest with _ | np
    · simp [hnp]
    · rcases hb : gs.board np with _ | r
      · by_cases hd : np = dest
        · subst hd
          simp [hnp, hb]
        · simp only [hnp, hb, if_neg hd]
          exact ih np
      · by_cases hcond : np = dest ∧ ¬ p.owner = (gs.pieces r).owner
        · obtain ⟨hd, hen⟩ := hcond
          subst hd
          simp [hnp, hb, hen]
        · simp [hnp, hb, hcond]

/-- Claim C6: for every sliding piece (Rook, Bishop, Queen), the path walk
behaves as specified: if the walk (which rejects the instant the stepper
returns `none`) ends in rejection then `Piece.move` rejects the move; if it
reaches the destination unoccupied, the move is accepted as a plain non-capture
move; and if the first occupied square reached is the destination holding an
opposing piece, the move is accepted as a capture of exactly that piece. -/
theorem c6_slider_path_walk (gs : GameState) (pid : PieceId) (sp dest : Char × Char)
    (direction : Dir)
    (hslide : (gs.pieces pid).ptype = PieceType.rook
      ∨ (gs.pieces pid).ptype = PieceType.bishop
      ∨ (gs.pieces pid).ptype = PieceType.queen)
    (hpos : (gs.pieces pid).pos = some sp)
    (hcd : classifyDir sp dest = some direction) :
    (walkSpec gs (gs.pieces pid) 8 sp dest direction = WalkOutcome.reject →
      (pieceMove gs pid dest).2 = MoveRes.rejected)
    ∧ (walkSpec gs (gs.pieces pid) 8 sp dest direction = WalkOutcome.clear →
      (pieceMove gs pid dest).2 = MoveRes.moved)
    ∧ (∀ q, walkSpec gs (gs.pieces pid) 8 sp dest direction = WalkOutcome.captureAt q →
      (pieceMove gs pid dest).2 = MoveRes.capture q
        ∧ ¬ (gs.pieces pid).owner = (gs.pieces q).owner) := by
  have hne : ¬ dest = sp := fun he => classifyDir_some_ne sp dest direction hcd he.symm
  have hleg : pieceLegal gs (gs.pieces pid) sp dest direction
      = sliderWalk gs (gs.pieces pid) 8 sp dest direction := by
    rcases hslide with h | h | h <;> simp [pieceLegal, h]
  have hwalk := walkSpec_vs_sliderWalk gs (gs.pieces pid) dest direction 8 sp
  refine ⟨fun h => ?_, fun h => ?_, fun q h => ?_⟩
  · have hw := hwalk.1 h
    simp only [pieceMove, hpos, hcd, hleg, hw, Bool.false_eq_true, if_false]
  · obtain ⟨hbd, hw⟩ := hwalk.2.1 h
    simp only [pieceMove, hpos, hcd, hleg, hw, if_true]
    exact executeMove_snd_none gs pid sp dest hne hbd
  · obtain ⟨hbd, hen, hw⟩ := hwalk.2.2 q h
    refine ⟨?_, hen⟩
    simp only [pieceMove, hpos, hcd, hleg, hw, if_true]
    exact executeMove_snd_some gs pid sp dest q hne hbd

/-- Witness for C6: in `sliderState` the white rook on a1 walks the clear path
a2,a3,a4 and captures the black pawn on a5. -/
theorem c6_witness :
    (pieceMove sliderState (mkId 8) (('a' : Char), '5')).2 = MoveRes.capture (mkId 16)
    ∧ ¬ (sliderState.pieces (mkId 8)).owner = (sliderState.pieces (mkId 16)).owner :=
  (c6_slider_path_walk sliderState (mkId 8) (('a' : Char), '1') (('a' : Char), '5')
    Dir.up (Or.inl (by decide)) (by decide) (by decide)).2.2 (mkId 16) (by decide)

theorem consistent_fields (g1 g2 : GameState) (hb : g2.board = g1.board)
    (hp : g2.pieces = g1.pieces) (hw : g2.whiteRoster = g1.whiteRoster)
    (hk : g2.blackRoster = g1.blackRoster) (hc : Consistent g1) : Consistent g2 := by
  obtain ⟨h1, h2⟩ := hc
  constructor
  · intro c q h
    rw [hb] at h
    rw [hp]
    exact h1 c q h
  · intro q hW hB
    rw [hw] at hW
    rw [hk] at hB
    rw [hp]
    exact h2 q hW hB

theorem consistent_executeMove (gs : GameState) (pid : PieceId) (sp dest : Char × Char)
    (hcon : Consistent gs)
    (hpos : (gs.pieces pid).pos = some sp)
    (hne : ¬ dest = sp) :
    Consistent (executeMove gs pid sp dest).1 := by
  obtain ⟨hc1, hc2⟩ := hcon
  unfold executeMove
  dsimp only
  split
  · rename_i hbd
    rw [if_neg hne] at hbd
    constructor
    · intro c q h
      dsimp only at h ⊢
      by_cases hcd : c = dest
      · subst hcd
        rw [if_pos rfl] at h
        injection h with h
        subst h
        rw [if_pos rfl]
      · rw [if_neg hcd] at h
        by_cases hcs : c = sp
        · rw [if_pos hcs] at h
          cases h
        · rw [if_neg hcs] at h
          by_cases hqp : q = pid
          · exfalso
            subst hqp
            have hpq := hc1 c q h
            rw [hpos] at hpq
            injection hpq with hpq
            exact hcs hpq.symm
          · rw [if_neg hqp]
            exact hc1 c q h
    · intro q hW hB
      dsimp only at hW hB ⊢
      by_cases hqp : q = pid
      · exfalso
        subst hqp
        have := hc2 q hW hB
        rw [hpos] at this
        cases this
      · rw [if_neg hqp]
        exact hc2 q hW hB
  · rename_i cap hbd
    rw [if_neg hne] at hbd
    have hcappos : (gs.pieces cap).pos = some dest := hc1 dest cap hbd
    have hcapne : ¬ cap = pid := by
      intro he
      rw [he, hpos] at hcappos
      injection hcappos with hh
      exact hne hh.symm
    constructor
    · intro c q h
      dsimp only at h ⊢
      by_cases hcd : c = dest
      · subst hcd
        rw [if_pos rfl] at h
        injection h with h
        subst h
        rw [if_neg (fun he => hcapne he.symm), if_pos rfl]
      · rw [if_neg hcd] at h
        by_cases hcs : c = sp
        · rw [if_pos hcs] at h
          cases h
        · rw [if_neg hcs] at h
          by_cases hqc : q = cap
          · exfalso
            subst hqc
            have hpq := hc1 c q h
            rw [hcappos] at hpq
            injection hpq with hpq
            exact hcd hpq.symm
          · by_cases hqp : q = pid
            · exfalso
              subst hqp
              have hpq := hc1 c q h
              rw [hpos] at hpq
              injection hpq with hpq
              exact hcs hpq.symm
            · rw [if_neg hqc, if_neg hqp]
              exact hc1 c q h
    · intro q hW hB
      dsimp only at hW hB ⊢
      by_cases hqc : q = cap
      · subst hqc
        rw [if_pos rfl]
      · rw [if_neg hqc]
        have hW' : q ∉ gs.whiteRoster := by
          by_cases ho : (gs.pieces cap).owner = Color.white
          · rw [if_pos ho] at hW
            intro hmem
            exact hW ((List.mem_erase_of_ne hqc).mpr hmem)
          · rw [if_neg ho] at hW
            exact hW
        have hB' : q ∉ gs.blackRoster := by
          by_cases ho : (gs.pieces cap).owner = Color.black
          · rw [if_pos ho] at hB
            intro hmem
            exact hB ((List.mem_erase_of_ne hqc).mpr hmem)
          · rw [if_neg ho] at hB
            exact hB
        by_cases hqp : q = pid
        · exfalso
          subst hqp
          have := hc2 q hW' hB'
          rw [hpos] at this
          cases this
        · rw [if_neg hqp]
          exact hc2 q hW' hB'

theorem consistent_pieceMove (gs : GameState) (pid : PieceId) (dest : Char × Char)
    (hcon : Consistent gs) : Consistent (pieceMove gs pid dest).1 := by
  unfold pieceMove
  split
  · exact hcon
  · rename_i sp hp
    split
    · exact hcon
    · rename_i dir hcd
      split
      · exact consistent_executeMove gs pid sp dest hcon hp
          (fun he => classifyDir_some_ne sp dest dir hcd he.symm)
      · exact hcon

theorem consistent_makeMove (gs : GameState) (s1 s2 : List Char)
    (hcon : Consistent gs) : Consistent (makeMove gs s1 s2).1 := by
  unfold makeMove
  split
  · exact hcon
  · split
    · exact hcon
    · split
      · exact hcon
      · exact hcon
      · rename_i pid hP
        split
        · exact hcon
        · split
          · exact hcon
          · rename_i dest hK
            dsimp only
            split
            · exact consistent_pieceMove gs pid dest hcon
            · exact consistent_pieceMove gs pid dest hcon
            · exact consistent_fields (pieceMove gs pid dest).1 _ rfl rfl rfl rfl
                (consistent_pieceMove gs pid dest hcon)
            · refine consistent_fields (pieceMove gs pid dest).1 _ ?_ ?_ ?_ ?_
                (consistent_pieceMove gs pid dest hcon)
              · dsimp only
                split <;> rfl
              · dsimp only
                split <;> rfl
              · dsimp only
                split <;> rfl
              · dsimp only
                split <;> rfl

theorem consistent_init : Consistent initState := by
  constructor
  · intro c pid h
    have h' : (List.finRange 32).find?
        (fun i => decide ((initPieceState i).pos = some c)) = some pid := h
    have h2 := @List.find?_some _ (fun i => decide ((initPieceState i).pos = some c))
      pid (List.finRange 32) h'
    simp only [decide_eq_true_eq] at h2
    exact h2
  · intro pid hW hB
    exfalso
    rcases Nat.lt_or_ge pid.val 16 with hlt | hge
    · apply hW
      refine List.mem_map.mpr ⟨pid.val, List.mem_range.mpr hlt, ?_⟩
      apply Fin.ext
      simp only [mkId]
      exact Nat.mod_eq_of_lt pid.isLt
    · apply hB
      refine List.mem_map.mpr ⟨pid.val - 16, List.mem_range.mpr (by omega), ?_⟩
      apply Fin.ext
      simp only [mkId]
      have h16 : 16 + (pid.val - 16) = pid.val := by omega
      rw [h16]
      exact Nat.mod_eq_of_lt pid.isLt

/-- Claim C9: in every game state reachable from the fresh game through the
engine's mutators, every occupied board square's occupant records that same
square as its own position, and every captured piece (one belonging to neither
roster) has position `None`. -/
theorem c9_occupancy_invariant (gs : GameState) (h : Reachable gs) :
    (∀ c pid, gs.board c = some pid → (gs.pieces pid).pos = some c)
    ∧ (∀ pid : PieceId, pid ∉ gs.whiteRoster → pid ∉ gs.blackRoster →
        (gs.pieces pid).pos = none) := by
  induction h with
  | init => exact consistent_init
  | move gs' s1 s2 _ ih => exact consistent_makeMove gs' s1 s2 ih
  | admin gs' s _ ih =>
    unfold setTurn
    split
    · exact consistent_fields _ _ rfl rfl rfl rfl ih
    · exact consistent_fields _ _ rfl rfl rfl rfl ih

/-- Witness for C9: the invariant holds in the concrete reachable state after
e2-e4 from the fresh game. -/
theorem c9_witness :
    (∀ c pid, (makeMove initState ['e', '2'] ['e', '4']).1.board c = some pid →
      ((makeMove initState ['e', '2'] ['e', '4']).1.pieces pid).pos = some c)
    ∧ (∀ pid : PieceId,
        pid ∉ (makeMove initState ['e', '2'] ['e', '4']).1.whiteRoster →
        pid ∉ (makeMove initState ['e', '2'] ['e', '4']).1.blackRoster →
        ((makeMove initState ['e', '2'] ['e', '4']).1.pieces pid).pos = none) :=
  c9_occupancy_invariant _
    (Reachable.move initState ['e', '2'] ['e', '4'] Reachable.init)

/-- Claim C1, counterexample: in `cexState` the capture e4xd5 removes Black's
last pawn; the game state becomes WHITE_WON as the claim says, but the turn is
flipped anyway (it does not stay with the White mover), because the source
flips the turn unconditionally after every capture. -/
theorem c1_counterexample :
    (makeMove cexState ['e', '4'] ['d', '5']).2 = Except.ok true
    ∧ (makeMove cexState ['e', '4'] ['d', '5']).1.gameState = GState.whiteWon
    ∧ ¬ (makeMove cexState ['e', '4'] ['d', '5']).1.turn = Color.white := by
  exact ⟨by decide, by decide, by decide⟩

end ChessVar
